import Mathlib

/-!
Shallow embedding of the plox tree-walking interpreter (scanner, parser,
environment chain, evaluator) and proofs about its specified behaviour.

Modelling conventions:
* Lox numbers (Python `float`) are modelled as `ℚ`; every claim examined
  here depends only on zero-tests, ordering and exact small integer values.
* Python-level exceptions that the interpreter does not itself raise as
  `RuntimeException` (KeyError, NameError, TypeError, the builtin
  RuntimeError, AttributeError) are modelled as `Err.host` values: they
  propagate past the `except RuntimeException` handler in
  `Interpreter.interpret` and are never reported through the runtime-error
  callback.
* Mutable `Environment` objects are modelled as an arena (`List Frame`)
  addressed by stable indices; `enclosing` is an index into the same arena.
* Recursion in the Python source (parser descent, evaluator, `while`) is
  modelled with an explicit fuel parameter; exhaustion is the distinct
  result `.fuel` / `PErr.fuel`, never confused with a real outcome.
-/

set_option maxRecDepth 20000
set_option maxHeartbeats 4000000

namespace Plox

/-- Single-quote character, kept out of string literals. -/
def q1 : String := String.singleton (Char.ofNat 39)

/-- Left-brace character as a string. -/
def lbr : String := String.singleton (Char.ofNat 123)

/-- Right-brace character as a string. -/
def rbr : String := String.singleton (Char.ofNat 125)

/-- Token kinds, from lox/token_type.py (the closed enumeration of
punctuation, operators, literals, keywords and EOF used by scanner.py,
parser.py and interpreter.py). -/
inductive TokenType where
  | LEFT_PAREN | RIGHT_PAREN | LEFT_BRACE | RIGHT_BRACE
  | COMMA | DOT | MINUS | PLUS | SEMICOLON | SLASH | STAR
  | BANG | BANG_EQUAL | EQUAL | EQUAL_EQUAL
  | GREATER | GREATER_EQUAL | LESS | LESS_EQUAL
  | IDENTIFIER | STRING | NUMBER
  | AND | CLASS | ELSE | FALSE | FUN | FOR | IF | NULL | OR
  | PRINT | RETURN | SUPER | THIS | TRUE | VAR | WHILE
  | EOF
deriving Repr, DecidableEq

/-- A scanner literal: the `literal` payload of a token
(Python: a float, a str, or None). -/
inductive ScanLit where
  | num (q : ℚ)
  | str (s : String)
deriving Repr, DecidableEq

/-- lox/token.py `Token`. -/
structure Token where
  tokenType : TokenType
  lexeme : String
  literal : Option ScanLit
  line : Nat
deriving Repr, DecidableEq

/-- The value carried by a `Literal` expression node
(Python object: None, bool, float or str). -/
inductive LitVal where
  | nil
  | bool (b : Bool)
  | num (q : ℚ)
  | str (s : String)
deriving Repr, DecidableEq

/-- Expression AST, from tool/AST/Expr.py (generated by
tool/generate_ast.py). `Variable` and `Assign` nodes carry a `Nat` id
modelling Python object identity: the interpreter's resolution map
`self.locals` is keyed by node identity. -/
inductive Expr where
  | assign (name : Token) (value : Expr) (id : Nat)
  | binary (left : Expr) (op : Token) (right : Expr)
  | call (callee : Expr) (paren : Token) (args : List Expr)
  | grouping (expression : Expr)
  | literal (value : LitVal)
  | logical (left : Expr) (op : Token) (right : Expr)
  | unary (op : Token) (right : Expr)
  | var (name : Token) (id : Nat)
deriving Repr

/-- Statement AST, from tool/AST/Stmt.py. Lists of statements produced by
`Parser.block`/`Parser.parse` may contain Python `None` entries (a
declaration that failed to parse), hence `Option Stmt` elements. -/
inductive Stmt where
  | block (statements : List (Option Stmt))
  | klass (name : Token) (methods : List Stmt)
  | expression (e : Expr)
  | function (name : Token) (params : List Token) (body : List (Option Stmt))
  | ifS (condition : Expr) (thenBranch : Stmt) (elseBranch : Option Stmt)
  | print (e : Expr)
  | ret (keyword : Token) (value : Option Expr)
  | var (name : Token) (initializer : Option Expr)
  | whileS (condition : Expr) (body : Stmt)
deriving Repr

/-- Run-time values. `func` models lox/lox_function.py (absent from the
snapshot; its shape `{declaration, closure}` is taken from the data model
in the spec), `native` models lox/native_functions.py, `klass` models
lox/lox_class.py. -/
inductive Value where
  | nil
  | bool (b : Bool)
  | num (q : ℚ)
  | str (s : String)
  | func (name : String) (params : List Token) (body : List (Option Stmt)) (closure : Nat)
  | native (name : String) (arity : Nat)
  | klass (name : String)
deriving Repr

/-- Errors raised during evaluation.
`rte` is `RuntimeException` from lox/errors/runtime_error.py, carrying a
message and the offending token (we keep its line).
`host` is any other Python-level exception (KeyError, NameError,
TypeError, builtin RuntimeError, AttributeError): it is NOT caught by
`except RuntimeException` in `Interpreter.interpret`.
`fuel` marks fuel exhaustion of the model, not a behaviour of the code. -/
inductive Err where
  | rte (message : String) (line : Nat)
  | host (message : String)
  | fuel
deriving Repr, DecidableEq

/-- Result of executing a statement: normal completion, a `Return`
non-local exit (lox/errors/return_error.py), or a propagating error. -/
inductive StRes where
  | norm
  | ret (v : Value)
  | exc (e : Err)
deriving Repr

/-- One Environment object (lox/environment.py): a mapping from names to
values plus an optional link to the enclosing environment (an arena
index). -/
structure Frame where
  values : List (String × Value)
  enclosing : Option Nat
deriving Repr

/-- The interpreter's mutable state: the arena of all environments (index
0 is `global_vars`), the current environment index (`self.environment`),
the resolution map `self.locals` (node id ↦ recorded distance; the stored
distance is itself optional because `lookup_variable` and
`visit_assign_expr` test it against None), and the text written by
executed `print` statements. -/
structure InterpState where
  arena : List Frame
  env : Nat
  locals : List (Nat × Option Nat)
  output : List String
deriving Repr

/-- Association-list lookup used for environment dictionaries. -/
def lookupVals : List (String × Value) → String → Option Value
  | [], _ => none
  | (k, v) :: t, n => if k = n then some v else lookupVals t n

/-- Python dict assignment `d[n] = v`: overwrite in place or append. -/
def setVals : List (String × Value) → String → Value → List (String × Value)
  | [], n, v => [(n, v)]
  | (k, w) :: t, n, v => if k = n then (k, v) :: t else (k, w) :: setVals t n v

/-- Resolution-map lookup (`expr in self.locals` / `self.locals[expr]`). -/
def lookupLocals : List (Nat × Option Nat) → Nat → Option (Option Nat)
  | [], _ => none
  | (k, d) :: t, n => if k = n then some d else lookupLocals t n

/-- Apply a function to the frame at one arena index. -/
def updateAt : List Frame → Nat → (Frame → Frame) → List Frame
  | [], _, _ => []
  | f :: t, 0, g => g f :: t
  | f :: t, n + 1, g => f :: updateAt t n g

/-- `Environment.define`: introduce or overwrite a binding in one frame. -/
def Frame.defineVal (f : Frame) (name : String) (v : Value) : Frame :=
  { f with values := setVals f.values name v }

/-- `Environment.define` on the frame at arena index `i`. -/
def defineIn (arena : List Frame) (i : Nat) (name : String) (v : Value) : List Frame :=
  updateAt arena i (fun f => f.defineVal name v)

/-- `Environment.get`: walk outward through `enclosing` links; an
exhausted chain raises the undefined-variable `RuntimeException`. The
fuel only bounds the (always finite, parent indices precede children)
chain walk. -/
def envGetFuel : Nat → List Frame → Nat → Token → Except Err Value
  | 0, _, _, _ => .error .fuel
  | fuel + 1, arena, i, name =>
    match arena.get? i with
    | none => .error (.host "AttributeError")
    | some f =>
      match lookupVals f.values name.lexeme with
      | some v => .ok v
      | none =>
        match f.enclosing with
        | some j => envGetFuel fuel arena j name
        | none =>
          .error (.rte ("Undefined variable " ++ q1 ++ name.lexeme ++ q1 ++ ".") name.line)

/-- `Environment.get` with fuel defaulted to the arena size. -/
def envGet (arena : List Frame) (i : Nat) (name : Token) : Except Err Value :=
  envGetFuel (arena.length + 1) arena i name

/-- `Environment.assign`: walk outward until the name is found, else the
undefined-variable `RuntimeException` (note the source uses backticks
around the name here, unlike `get`). -/
def envAssignFuel : Nat → List Frame → Nat → Token → Value → Except Err (List Frame)
  | 0, _, _, _, _ => .error .fuel
  | fuel + 1, arena, i, name, v =>
    match arena.get? i with
    | none => .error (.host "AttributeError")
    | some f =>
      if (lookupVals f.values name.lexeme).isSome then
        .ok (defineIn arena i name.lexeme v)
      else
        match f.enclosing with
        | some j => envAssignFuel fuel arena j name v
        | none =>
          .error (.rte ("Undefined variable `" ++ name.lexeme ++ "`.") name.line)

/-- `Environment.assign` with fuel defaulted to the arena size. -/
def envAssign (arena : List Frame) (i : Nat) (name : Token) (v : Value) :
    Except Err (List Frame) :=
  envAssignFuel (arena.length + 1) arena i name v

/-- `Environment.ancestor`: follow `enclosing` exactly `distance` times.
`none` means the walk reached a Python `None` environment, so any
subsequent attribute access raises a host-level AttributeError. -/
def ancestorIdx : Nat → List Frame → Nat → Option Nat
  | 0, _, i => some i
  | d + 1, arena, i =>
    match arena.get? i with
    | none => none
    | some f =>
      match f.enclosing with
      | some j => ancestorIdx d arena j
      | none => none

/-- `Environment.get_at`: `self.ancestor(distance).values[name]` — a
direct dict index, so a missing key is a host-level KeyError, not a
`RuntimeException`. -/
def getAt (arena : List Frame) (dist : Nat) (i : Nat) (name : String) : Except Err Value :=
  match ancestorIdx dist arena i with
  | none => .error (.host "AttributeError")
  | some j =>
    match arena.get? j with
    | none => .error (.host "AttributeError")
    | some f =>
      match lookupVals f.values name with
      | some v => .ok v
      | none => .error (.host ("KeyError: " ++ name))

/-- `Environment.assign_at`: `self.ancestor(distance).values[name] = v`
(dict store: creates the key if missing). -/
def assignAt (arena : List Frame) (dist : Nat) (i : Nat) (name : String) (v : Value) :
    Except Err (List Frame) :=
  match ancestorIdx dist arena i with
  | none => .error (.host "AttributeError")
  | some j =>
    match arena.get? j with
    | none => .error (.host "AttributeError")
    | some _ => .ok (defineIn arena j name v)

/-- `Interpreter.is_truthy`. -/
def isTruthy : Value → Bool
  | .nil => false
  | .bool b => b
  | .num q => q ≠ 0
  | .str s => s.length > 0
  | _ => true

/-- `Interpreter.is_equal`. Python `==` makes booleans compare equal to
numbers by numeric value (True == 1.0); function/class values fall back
to object identity, approximated structurally here (no examined claim
compares them). -/
def isEqual : Value → Value → Bool
  | .nil, .nil => true
  | .nil, _ => false
  | _, .nil => false
  | .num a, .num b => a = b
  | .str a, .str b => a = b
  | .bool a, .bool b => a = b
  | .bool a, .num b => (if a then (1 : ℚ) else 0) = b
  | .num a, .bool b => a = (if b then (1 : ℚ) else 0)
  | _, _ => false

/-- Python `str(float)` restricted to what `stringify` inspects: an
integral value renders as "n.0"; non-integral values (never reached by the
theorems below) are approximated as "num/den". -/
def floatStr (x : ℚ) : String :=
  if x.den = 1 then toString x.num ++ ".0"
  else toString x.num ++ "/" ++ toString x.den

/-- The number branch of `Interpreter.stringify`:
`if text.endswith(".0"): text = text[0:len(text) - 2]`, carried out on
the character list. -/
def stripDotZero (s : String) : String :=
  let cs := s.toList
  if cs.reverse.take 2 = ['0', '.'] then String.mk (cs.take (cs.length - 2)) else s

/-- `Interpreter.stringify`. -/
def stringify : Value → String
  | .nil => "null"
  | .num x => stripDotZero (floatStr x)
  | .bool b => if b then "True" else "False"
  | .str s => s
  | .func n _ _ _ => "<fn " ++ n ++ ">"
  | .native n _ => "<native fn " ++ n ++ ">"
  | .klass n => "<class " ++ n ++ ">"

/-- Value of a `Literal` expression node. -/
def litToValue : LitVal → Value
  | .nil => .nil
  | .bool b => .bool b
  | .num q => .num q
  | .str s => .str s

/-- `isinstance(callee, LoxCallable)`: functions, natives and classes
implement the callable contract (spec: run-time value `callable
(function or class)`). -/
def isCallable : Value → Bool
  | .func _ _ _ _ => true
  | .native _ _ => true
  | .klass _ => true
  | _ => false

/-- Declared arity of a callable. Modelled from the spec for the absent
lox_function.py / lox_class.py: a function's arity is its declared
parameter count; the nascent class value takes no arguments. -/
def arityOf : Value → Nat
  | .func _ params _ _ => params.length
  | .native _ a => a
  | .klass _ => 0
  | _ => 0

/-- `Interpreter.lookup_variable`: if the node is in the resolution map
with a non-None distance use `get_at` from the current environment,
otherwise fall back to `global_vars.get`. -/
def lookupVariable (σ : InterpState) (name : Token) (id : Nat) : Except Err Value :=
  match lookupLocals σ.locals id with
  | some (some d) => getAt σ.arena d σ.env name.lexeme
  | _ => envGet σ.arena 0 name

/-- Python `type(x).__name__` for the run-time values, used in the
unsupported-operand message of `+`. -/
def typeName : Value → String
  | .nil => "NoneType"
  | .bool _ => "bool"
  | .num _ => "float"
  | .str _ => "str"
  | .func _ _ _ _ => "LoxFunction"
  | .native _ _ => "NativeFunction"
  | .klass _ => "LoxClass"

/-- Is the value a Python `str`? -/
def isStr : Value → Bool
  | .str _ => true
  | _ => false

/-- `Interpreter.visit_binary_expr` operator dispatch, applied after both
operands have been evaluated. In the SLASH case the source tests
`if left or right == 0`, which by Python operator precedence is
`bool(left) or (right == 0)`: the error fires when the left operand is
truthy (non-zero) or the right operand equals zero. -/
def evalBinaryOp (op : Token) (left right : Value) : Except Err Value :=
  match op.tokenType with
  | .GREATER =>
    match left, right with
    | .num a, .num b => .ok (.bool (a > b))
    | _, _ => .error (.rte "Operands must be numbers." op.line)
  | .GREATER_EQUAL =>
    match left, right with
    | .num a, .num b => .ok (.bool (a ≥ b))
    | _, _ => .error (.rte "Operands must be numbers." op.line)
  | .LESS =>
    match left, right with
    | .num a, .num b => .ok (.bool (a < b))
    | _, _ => .error (.rte "Operands must be numbers." op.line)
  | .LESS_EQUAL =>
    match left, right with
    | .num a, .num b => .ok (.bool (a ≤ b))
    | _, _ => .error (.rte "Operands must be numbers." op.line)
  | .MINUS =>
    match left, right with
    | .num a, .num b => .ok (.num (a - b))
    | _, _ => .error (.rte "Operands must be numbers." op.line)
  | .PLUS =>
    match left, right with
    | .num a, .num b => .ok (.num (a + b))
    | .str a, .str b => .ok (.str (a ++ b))
    | _, _ =>
      if isStr left || isStr right then
        .ok (.str (stringify left ++ stringify right))
      else
        .error (.rte ("Unsupported operand types for " ++ q1 ++ op.lexeme ++ q1 ++
          ": cannot use with " ++ q1 ++ typeName left ++ q1 ++ " and " ++ q1 ++
          typeName right ++ q1 ++ ".") op.line)
  | .SLASH =>
    match left, right with
    | .num a, .num b =>
      if a ≠ 0 ∨ b = 0 then .error (.rte "Cannot divide by zero." op.line)
      else .ok (.num (a / b))
    | _, _ => .error (.rte "Operands must be numbers." op.line)
  | .STAR =>
    match left, right with
    | .num a, .num b => .ok (.num (a * b))
    | _, _ => .error (.rte "Operands must be numbers." op.line)
  | .BANG_EQUAL => .ok (.bool (!isEqual left right))
  | .EQUAL_EQUAL => .ok (.bool (isEqual left right))
  | _ => .ok .nil

mutual

/-- `Interpreter.evaluate` and the expression visitor methods of
lox/interpreter.py, with an explicit fuel for the recursion. -/
def evalExpr : Nat → Expr → InterpState → Except Err Value × InterpState
  | 0, _, σ => (.error .fuel, σ)
  | fuel + 1, e, σ =>
    match e with
    | .literal v => (.ok (litToValue v), σ)
    | .grouping inner => evalExpr fuel inner σ
    | .unary op right =>
      match evalExpr fuel right σ with
      | (.error er, σ1) => (.error er, σ1)
      | (.ok rv, σ1) =>
        match op.tokenType with
        | .BANG => (.ok (.bool (!isTruthy rv)), σ1)
        | .MINUS =>
          match rv with
          | .num q => (.ok (.num (-q)), σ1)
          | _ => (.error (.rte "Operand must be a number." op.line), σ1)
        | _ => (.ok .nil, σ1)
    | .logical left op right =>
      match evalExpr fuel left σ with
      | (.error er, σ1) => (.error er, σ1)
      | (.ok lv, σ1) =>
        if op.tokenType = .OR then
          if isTruthy lv then (.ok lv, σ1) else evalExpr fuel right σ1
        else if op.tokenType = .AND then
          if !isTruthy lv then (.ok lv, σ1) else evalExpr fuel right σ1
        else (.ok .nil, σ1)
    | .var name id => (lookupVariable σ name id, σ)
    | .assign name value id =>
      match evalExpr fuel value σ with
      | (.error er, σ1) => (.error er, σ1)
      | (.ok v, σ1) =>
        -- `distance: int = self.locals[expr]` — a direct dict index, so a
        -- node the resolution map never recorded raises a host KeyError.
        match lookupLocals σ1.locals id with
        | none => (.error (.host "KeyError: Expr.Assign"), σ1)
        | some (some dist) =>
          match assignAt σ1.arena dist σ1.env name.lexeme v with
          | .ok arena2 => (.ok v, { σ1 with arena := arena2 })
          | .error er => (.error er, σ1)
        | some none =>
          match envAssign σ1.arena 0 name v with
          | .ok arena2 => (.ok v, { σ1 with arena := arena2 })
          | .error er => (.error er, σ1)
    | .binary left op right =>
      match evalExpr fuel left σ with
      | (.error er, σ1) => (.error er, σ1)
      | (.ok lv, σ1) =>
        match evalExpr fuel right σ1 with
        | (.error er, σ2) => (.error er, σ2)
        | (.ok rv, σ2) => (evalBinaryOp op lv rv, σ2)
    | .call callee paren argEs =>
      match evalExpr fuel callee σ with
      | (.error er, σ1) => (.error er, σ1)
      | (.ok cv, σ1) =>
        match evalArgs fuel argEs σ1 with
        | (.error er, σ2) => (.error er, σ2)
        | (.ok args, σ2) =>
          if !isCallable cv then
            (.error (.rte "You can only call functions and classes." paren.line), σ2)
          else if args.length ≠ arityOf cv then
            -- `raise RuntimeError(f"Expected ... but got ...")` — the
            -- builtin RuntimeError, not RuntimeException: a host error.
            (.error (.host ("Expected " ++ toString (arityOf cv) ++
              " arguments but got " ++ toString args.length ++ ".")), σ2)
          else callValue fuel cv args σ2

/-- Evaluate call arguments left to right. -/
def evalArgs : Nat → List Expr → InterpState → Except Err (List Value) × InterpState
  | 0, _, σ => (.error .fuel, σ)
  | _fuel + 1, [], σ => (.ok [], σ)
  | fuel + 1, e :: rest, σ =>
    match evalExpr fuel e σ with
    | (.error er, σ1) => (.error er, σ1)
    | (.ok v, σ1) =>
      match evalArgs fuel rest σ1 with
      | (.error er, σ2) => (.error er, σ2)
      | (.ok vs, σ2) => (.ok (v :: vs), σ2)

/-- `LoxCallable.call`. Modelled from the spec for the absent
lox_function.py: one fresh environment chained to the function's closure
per invocation, parameters bound positionally, the body executed as a
block, yielding nil unless a Return unwind supplies a value. The native
clock function and the nascent class value are likewise modelled from the
spec (its external-interface and design-note sections). -/
def callValue : Nat → Value → List Value → InterpState → Except Err Value × InterpState
  | 0, _, _, σ => (.error .fuel, σ)
  | fuel + 1, .func _ params body closure, args, σ =>
    let vals := (params.zip args).foldl (fun acc pa => setVals acc pa.1.lexeme pa.2) []
    let idx := σ.arena.length
    match execBlock fuel body idx { σ with arena := σ.arena ++ [⟨vals, some closure⟩] } with
    | (.norm, σ2) => (.ok .nil, σ2)
    | (.ret v, σ2) => (.ok v, σ2)
    | (.exc er, σ2) => (.error er, σ2)
  | _fuel + 1, .native _ _, _, σ => (.ok (.num 0), σ)
  | _fuel + 1, .klass _, _, σ => (.error (.host "class instantiation not modelled"), σ)
  | _fuel + 1, _, _, σ => (.error (.host "not callable"), σ)

/-- `Interpreter.execute_block`: remember the current environment, switch
to the given one, execute the statements, and restore the previous
environment on every exit path (the Python try/finally). -/
def execBlock : Nat → List (Option Stmt) → Nat → InterpState → StRes × InterpState
  | 0, _, _, σ => (.exc .fuel, σ)
  | fuel + 1, stmts, envIdx, σ =>
    match execStmts fuel stmts { σ with env := envIdx } with
    | (r, σ1) => (r, { σ1 with env := σ.env })

/-- Execute a list of possibly-None statements in order; executing a
Python None entry dispatches `accept` on None and raises a host
AttributeError. -/
def execStmts : Nat → List (Option Stmt) → InterpState → StRes × InterpState
  | 0, _, σ => (.exc .fuel, σ)
  | _fuel + 1, [], σ => (.norm, σ)
  | _fuel + 1, none :: _, σ => (.exc (.host "AttributeError: NoneType"), σ)
  | fuel + 1, some s :: rest, σ =>
    match execStmt fuel s σ with
    | (.norm, σ1) => execStmts fuel rest σ1
    | other => other

/-- `Interpreter.execute` and the statement visitor methods. -/
def execStmt : Nat → Stmt → InterpState → StRes × InterpState
  | 0, _, σ => (.exc .fuel, σ)
  | fuel + 1, s, σ =>
    match s with
    | .expression e =>
      match evalExpr fuel e σ with
      | (.error er, σ1) => (.exc er, σ1)
      | (.ok _, σ1) => (.norm, σ1)
    | .print e =>
      match evalExpr fuel e σ with
      | (.error er, σ1) => (.exc er, σ1)
      | (.ok v, σ1) => (.norm, { σ1 with output := σ1.output ++ [stringify v] })
    | .var name init =>
      match init with
      | none => (.norm, { σ with arena := defineIn σ.arena σ.env name.lexeme .nil })
      | some e =>
        match evalExpr fuel e σ with
        | (.error er, σ1) => (.exc er, σ1)
        | (.ok v, σ1) => (.norm, { σ1 with arena := defineIn σ1.arena σ1.env name.lexeme v })
    | .block stmts =>
      execBlock fuel stmts σ.arena.length { σ with arena := σ.arena ++ [⟨[], some σ.env⟩] }
    | .ifS cond thenB elseB =>
      match evalExpr fuel cond σ with
      | (.error er, σ1) => (.exc er, σ1)
      | (.ok v, σ1) =>
        if isTruthy v then execStmt fuel thenB σ1
        else
          match elseB with
          | some eb => execStmt fuel eb σ1
          | none => (.norm, σ1)
    | .whileS cond body =>
      match evalExpr fuel cond σ with
      | (.error er, σ1) => (.exc er, σ1)
      | (.ok v, σ1) =>
        if isTruthy v then
          match execStmt fuel body σ1 with
          | (.norm, σ2) => execStmt fuel (.whileS cond body) σ2
          | other => other
        else (.norm, σ1)
    | .function name params body =>
      let fv : Value := .func name.lexeme params body σ.env
      (.norm, { σ with arena := defineIn σ.arena σ.env name.lexeme fv })
    | .klass name _methods =>
      let σ1 : InterpState := { σ with arena := defineIn σ.arena σ.env name.lexeme .nil }
      match envAssign σ1.arena σ1.env name (.klass name.lexeme) with
      | .ok arena2 => (.norm, { σ1 with arena := arena2 })
      | .error er => (.exc er, σ1)
    | .ret _kw value =>
      match value with
      | none => (.ret .nil, σ)
      | some e =>
        match evalExpr fuel e σ with
        | (.error er, σ1) => (.exc er, σ1)
        | (.ok v, σ1) => (.ret v, σ1)

end

/-!  Scanner (lox/scanner.py).  -/

/-- Scanner state. -/
structure SState where
  source : List Char
  tokens : List Token
  start : Nat
  current : Nat
  line : Nat
  errors : List (Nat × String)
deriving Repr

/-- `Scanner.is_at_end`. -/
def SState.isAtEnd (st : SState) : Bool := st.current ≥ st.source.length

/-- `Scanner.peek` (the null character when at the end). -/
def SState.peekCh (st : SState) : Char :=
  if st.isAtEnd then Char.ofNat 0 else st.source.getD st.current (Char.ofNat 0)

/-- `Scanner.advance`. -/
def SState.advanceCh (st : SState) : Char × SState :=
  (st.source.getD st.current (Char.ofNat 0), { st with current := st.current + 1 })

/-- `Scanner.match`. -/
def SState.matchCh (st : SState) (expected : Char) : Bool × SState :=
  if st.isAtEnd then (false, st)
  else if st.source.getD st.current (Char.ofNat 0) ≠ expected then (false, st)
  else (true, { st with current := st.current + 1 })

/-- `Scanner.is_digit`. -/
def isDigitCh (c : Char) : Bool := c ≥ '0' && c ≤ '9'

/-- `Scanner.is_alpha` (Python `str.isalpha` restricted to ASCII letters,
which is all the examined sources contain). -/
def isAlphaCh (c : Char) : Bool := c.isAlpha || c = '_'

/-- `Scanner.is_alpha_numeric`. -/
def isAlphaNumericCh (c : Char) : Bool := isAlphaCh c || isDigitCh c

/-- The lexeme `source[start:current]`. -/
def SState.lexemeOf (st : SState) : String :=
  String.mk ((st.source.drop st.start).take (st.current - st.start))

/-- `Scanner.add_token`. -/
def SState.addToken (st : SState) (tt : TokenType) (lit : Option ScanLit) : SState :=
  { st with tokens := st.tokens ++ [⟨tt, st.lexemeOf, lit, st.line⟩] }

/-- The keyword table of `Scanner.__init__`. -/
def keywordType : String → Option TokenType
  | "and" => some .AND
  | "class" => some .CLASS
  | "else" => some .ELSE
  | "false" => some .FALSE
  | "for" => some .FOR
  | "fun" => some .FUN
  | "if" => some .IF
  | "null" => some .NULL
  | "or" => some .OR
  | "print" => some .PRINT
  | "return" => some .RETURN
  | "super" => some .SUPER
  | "this" => some .THIS
  | "true" => some .TRUE
  | "var" => some .VAR
  | "while" => some .WHILE
  | _ => none

/-- `while self.is_digit(self.peek()): self.advance()`. -/
def digitsLoop : Nat → SState → SState
  | 0, st => st
  | fuel + 1, st =>
    if isDigitCh st.peekCh then digitsLoop fuel (st.advanceCh).2 else st

/-- Integer value of a digit-only lexeme (`float` of it is exact). -/
def digitsToNat : List Char → Nat → Nat
  | [], acc => acc
  | c :: t, acc => digitsToNat t (acc * 10 + (c.toNat - 48))

/-- `float(lexeme)` for the digit-only lexemes the scanner can produce. -/
def digitsVal (s : String) : ℚ := (digitsToNat s.toList 0 : ℚ)

/-- `Scanner.number`. The fractional-part test is
`if self.peek() == ... and self.is_digit(self.peek_next):` with
`self.peek_next` NOT called: `is_digit` receives the bound method and its
first comparison with a one-character string raises a TypeError, so the
scan crashes whenever the digits are followed by a dot. -/
def scanNumber (fuel : Nat) (st : SState) : Except Err SState :=
  let st := digitsLoop fuel st
  if st.peekCh = '.' then
    .error (.host "TypeError: ordering comparison of method and str")
  else
    .ok (st.addToken .NUMBER (some (.num (digitsVal st.lexemeOf))))

/-- `while self.is_alpha_numeric(self.peek()): self.advance()`. -/
def identLoop : Nat → SState → SState
  | 0, st => st
  | fuel + 1, st =>
    if isAlphaNumericCh st.peekCh then identLoop fuel (st.advanceCh).2 else st

/-- `Scanner.identifier`. -/
def scanIdentifier (fuel : Nat) (st : SState) : SState :=
  let st := identLoop fuel st
  let text := st.lexemeOf
  st.addToken (match keywordType text with | some t => t | none => .IDENTIFIER) none

/-- The `//` comment loop: discard until newline or end. -/
def commentLoop : Nat → SState → SState
  | 0, st => st
  | fuel + 1, st =>
    if st.peekCh ≠ '\n' && !st.isAtEnd then commentLoop fuel (st.advanceCh).2 else st

/-- The scan loop of `Scanner.string`. -/
def stringLoop : Nat → Char → SState → SState
  | 0, _, st => st
  | fuel + 1, quote, st =>
    if st.peekCh ≠ quote && !st.isAtEnd then
      let st := if st.peekCh = '\n' then { st with line := st.line + 1 } else st
      stringLoop fuel quote (st.advanceCh).2
    else st

/-- `Scanner.string`: an unterminated string reports an error and yields
no token; otherwise the token's literal is the text between the quotes. -/
def scanString (fuel : Nat) (quote : Char) (st : SState) : SState :=
  let st := stringLoop fuel quote st
  if st.isAtEnd then
    { st with errors := st.errors ++ [(st.line, "Unterminated string.")] }
  else
    let st := (st.advanceCh).2
    let inner := String.mk ((st.source.drop (st.start + 1)).take (st.current - 1 - (st.start + 1)))
    st.addToken .STRING (some (.str inner))

/-- `Scanner.scan_token`. -/
def scanToken (fuel : Nat) (st : SState) : Except Err SState :=
  let (c, st) := st.advanceCh
  if c = '(' then .ok (st.addToken .LEFT_PAREN none)
  else if c = ')' then .ok (st.addToken .RIGHT_PAREN none)
  else if c = Char.ofNat 123 then .ok (st.addToken .LEFT_BRACE none)
  else if c = Char.ofNat 125 then .ok (st.addToken .RIGHT_BRACE none)
  else if c = ',' then .ok (st.addToken .COMMA none)
  else if c = '.' then .ok (st.addToken .DOT none)
  else if c = '-' then .ok (st.addToken .MINUS none)
  else if c = '+' then .ok (st.addToken .PLUS none)
  else if c = ';' then .ok (st.addToken .SEMICOLON none)
  else if c = '*' then .ok (st.addToken .STAR none)
  else if c = '!' then
    let (m, st) := st.matchCh '='
    .ok (st.addToken (if m then .BANG_EQUAL else .BANG) none)
  else if c = '=' then
    let (m, st) := st.matchCh '='
    .ok (st.addToken (if m then .EQUAL_EQUAL else .EQUAL) none)
  else if c = '<' then
    let (m, st) := st.matchCh '='
    .ok (st.addToken (if m then .LESS_EQUAL else .LESS) none)
  else if c = '>' then
    let (m, st) := st.matchCh '='
    .ok (st.addToken (if m then .GREATER_EQUAL else .GREATER) none)
  else if c = '/' then
    let (m, st) := st.matchCh '/'
    if m then .ok (commentLoop fuel st) else .ok (st.addToken .SLASH none)
  else if c = ' ' || c = '\r' || c = '\t' then .ok st
  else if c = '\n' then .ok { st with line := st.line + 1 }
  else if c = '"' || c = Char.ofNat 39 then .ok (scanString fuel c st)
  else if isDigitCh c then scanNumber fuel st
  else if isAlphaCh c then .ok (scanIdentifier fuel st)
  else
    .ok { st with errors := st.errors ++
      [(st.line, "Unexpected character: " ++ q1 ++ String.singleton c ++ q1)] }

/-- The loop of `Scanner.scan_tokens`. -/
def scanLoop : Nat → SState → Except Err SState
  | 0, _ => .error .fuel
  | fuel + 1, st =>
    if st.isAtEnd then .ok st
    else
      match scanToken fuel { st with start := st.current } with
      | .error e => .error e
      | .ok st1 => scanLoop fuel st1

/-- `Scanner.scan_tokens`: scan the whole source, then append the EOF
token. -/
def scanSource (fuel : Nat) (source : String) : Except Err SState :=
  match scanLoop fuel ⟨source.toList, [], 0, 0, 1, []⟩ with
  | .error e => .error e
  | .ok st => .ok { st with tokens := st.tokens ++ [⟨.EOF, "", none, st.line⟩] }

/-!  Parser (lox/parser.py).  -/

/-- Parser error channel: `perr` is `Parser.ParseError` (raised after the
error callback ran and caught in `declaration`); `host` is any other
Python-level exception; `fuel` is model fuel exhaustion. -/
inductive PErr where
  | perr
  | host (message : String)
  | fuel
deriving Repr, DecidableEq

/-- Parser state: the token list, the cursor, the reported errors (token
and message as handed to the error callback) and a counter supplying the
identity of each freshly constructed Variable/Assign node. -/
structure PState where
  tokens : List Token
  current : Nat
  errors : List (Token × String)
  nextId : Nat
deriving Repr, DecidableEq

/-- Fallback token (never reached on the token lists the scanner builds,
which always end in EOF). -/
def eofTok : Token := ⟨.EOF, "", none, 0⟩

/-- `Parser.peek`. -/
def PState.peekTok (st : PState) : Token := st.tokens.getD st.current eofTok

/-- `Parser.previous`. -/
def PState.prevTok (st : PState) : Token := st.tokens.getD (st.current - 1) eofTok

/-- `Parser.is_at_end`. -/
def PState.isAtEnd (st : PState) : Bool := st.peekTok.tokenType = .EOF

/-- `Parser.check`. -/
def PState.checkTok (st : PState) (t : TokenType) : Bool :=
  if st.isAtEnd then false else st.peekTok.tokenType = t

/-- `Parser.advance`. -/
def PState.advanceTok (st : PState) : Token × PState :=
  let st1 := if st.isAtEnd then st else { st with current := st.current + 1 }
  (st1.prevTok, st1)

/-- `Parser.match`. -/
def PState.matchTok (st : PState) : List TokenType → Bool × PState
  | [] => (false, st)
  | t :: rest => if st.checkTok t then (true, (st.advanceTok).2) else st.matchTok rest

/-- `Parser.error`: report through the error callback; the ParseError
itself is the caller's to raise. -/
def PState.reportErr (st : PState) (tok : Token) (msg : String) : PState :=
  { st with errors := st.errors ++ [(tok, msg)] }

/-- `Parser.consume`. -/
def PState.consumeTok (st : PState) (t : TokenType) (msg : String) :
    Except PErr Token × PState :=
  if st.checkTok t then
    let (tok, st1) := st.advanceTok
    (.ok tok, st1)
  else (.error .perr, st.reportErr st.peekTok msg)

/-- Fresh node identity for a Variable/Assign expression. -/
def PState.takeId (st : PState) : Nat × PState :=
  (st.nextId, { st with nextId := st.nextId + 1 })

/-- The statement-start token kinds of `Parser.synchronise`. -/
def isSyncStart : TokenType → Bool
  | .CLASS | .FUN | .VAR | .FOR | .IF | .WHILE | .PRINT | .RETURN => true
  | _ => false

/-- The loop of `Parser.synchronise`. -/
def syncLoop : Nat → PState → PState
  | 0, st => st
  | fuel + 1, st =>
    if st.isAtEnd then st
    else if st.prevTok.tokenType = .SEMICOLON then st
    else if isSyncStart st.peekTok.tokenType then st
    else syncLoop fuel (st.advanceTok).2

/-- `Parser.synchronise`: advance once, then discard tokens up to a
statement boundary. -/
def synchronise (fuel : Nat) (st : PState) : PState :=
  syncLoop fuel (st.advanceTok).2

/-- Wrap a string in single quotes, as the parser's messages do. -/
def qd (s : String) : String := q1 ++ s ++ q1

/-- The desugaring block at the end of `Parser.for_statement` (after the
clauses are parsed): a present increment is appended to the body inside a
new Block, a missing condition becomes the literal true, the result is
wrapped in a While, and a present initialiser wraps that While in an
outer Block. -/
def desugarFor (initialiser : Option Stmt) (condition : Option Expr)
    (increment : Option Expr) (body : Stmt) : Stmt :=
  let body1 :=
    match increment with
    | some inc => Stmt.block [some body, some (.expression inc)]
    | none => body
  let cond1 :=
    match condition with
    | some c => c
    | none => Expr.literal (.bool true)
  let w := Stmt.whileS cond1 body1
  match initialiser with
  | some i => Stmt.block [some i, some w]
  | none => w

mutual

/-- `Parser.expression`. -/
def expressionF : Nat → PState → Except PErr Expr × PState
  | 0, st => (.error .fuel, st)
  | fuel + 1, st => assignmentF fuel st

/-- `Parser.assignment`. -/
def assignmentF : Nat → PState → Except PErr Expr × PState
  | 0, st => (.error .fuel, st)
  | fuel + 1, st =>
    match logicalOrF fuel st with
    | (.error er, st) => (.error er, st)
    | (.ok expr, st) =>
      let (m, st) := st.matchTok [.EQUAL]
      if m then
        let equals := st.prevTok
        match assignmentF fuel st with
        | (.error er, st) => (.error er, st)
        | (.ok value, st) =>
          match expr with
          | .var name _ =>
            let (id, st) := st.takeId
            (.ok (.assign name value id), st)
          | _ => (.ok expr, st.reportErr equals "Invalid assignment target.")
      else (.ok expr, st)

/-- `Parser.logical_or`. -/
def logicalOrF : Nat → PState → Except PErr Expr × PState
  | 0, st => (.error .fuel, st)
  | fuel + 1, st =>
    match logicalAndF fuel st with
    | (.error er, st) => (.error er, st)
    | (.ok e, st) => logicalOrLoopF fuel e st

/-- The `while self.match(OR)` loop of `Parser.logical_or`. -/
def logicalOrLoopF : Nat → Expr → PState → Except PErr Expr × PState
  | 0, _, st => (.error .fuel, st)
  | fuel + 1, e, st =>
    let (m, st) := st.matchTok [.OR]
    if m then
      let op := st.prevTok
      match logicalAndF fuel st with
      | (.error er, st) => (.error er, st)
      | (.ok r, st) => logicalOrLoopF fuel (.logical e op r) st
    else (.ok e, st)

/-- `Parser.logical_and`. -/
def logicalAndF : Nat → PState → Except PErr Expr × PState
  | 0, st => (.error .fuel, st)
  | fuel + 1, st =>
    match equalityF fuel st with
    | (.error er, st) => (.error er, st)
    | (.ok e, st) => logicalAndLoopF fuel e st

/-- The `while self.match(AND)` loop of `Parser.logical_and`. -/
def logicalAndLoopF : Nat → Expr → PState → Except PErr Expr × PState
  | 0, _, st => (.error .fuel, st)
  | fuel + 1, e, st =>
    let (m, st) := st.matchTok [.AND]
    if m then
      let op := st.prevTok
      match equalityF fuel st with
      | (.error er, st) => (.error er, st)
      | (.ok r, st) => logicalAndLoopF fuel (.logical e op r) st
    else (.ok e, st)

/-- `Parser.equality`. -/
def equalityF : Nat → PState → Except PErr Expr × PState
  | 0, st => (.error .fuel, st)
  | fuel + 1, st =>
    match comparisonF fuel st with
    | (.error er, st) => (.error er, st)
    | (.ok e, st) => equalityLoopF fuel e st

/-- The binary loop of `Parser.equality`. -/
def equalityLoopF : Nat → Expr → PState → Except PErr Expr × PState
  | 0, _, st => (.error .fuel, st)
  | fuel + 1, e, st =>
    let (m, st) := st.matchTok [.BANG_EQUAL, .EQUAL_EQUAL]
    if m then
      let op := st.prevTok
      match comparisonF fuel st with
      | (.error er, st) => (.error er, st)
      | (.ok r, st) => equalityLoopF fuel (.binary e op r) st
    else (.ok e, st)

/-- `Parser.comparison`. -/
def comparisonF : Nat → PState → Except PErr Expr × PState
  | 0, st => (.error .fuel, st)
  | fuel + 1, st =>
    match termF fuel st with
    | (.error er, st) => (.error er, st)
    | (.ok e, st) => comparisonLoopF fuel e st

/-- The binary loop of `Parser.comparison`. -/
def comparisonLoopF : Nat → Expr → PState → Except PErr Expr × PState
  | 0, _, st => (.error .fuel, st)
  | fuel + 1, e, st =>
    let (m, st) := st.matchTok [.GREATER, .GREATER_EQUAL, .LESS, .LESS_EQUAL]
    if m then
      let op := st.prevTok
      match termF fuel st with
      | (.error er, st) => (.error er, st)
      | (.ok r, st) => comparisonLoopF fuel (.binary e op r) st
    else (.ok e, st)

/-- `Parser.term`. -/
def termF : Nat → PState → Except PErr Expr × PState
  | 0, st => (.error .fuel, st)
  | fuel + 1, st =>
    match factorF fuel st with
    | (.error er, st) => (.error er, st)
    | (.ok e, st) => termLoopF fuel e st

/-- The binary loop of `Parser.term`. -/
def termLoopF : Nat → Expr → PState → Except PErr Expr × PState
  | 0, _, st => (.error .fuel, st)
  | fuel + 1, e, st =>
    let (m, st) := st.matchTok [.MINUS, .PLUS]
    if m then
      let op := st.prevTok
      match factorF fuel st with
      | (.error er, st) => (.error er, st)
      | (.ok r, st) => termLoopF fuel (.binary e op r) st
    else (.ok e, st)

/-- `Parser.factor`. -/
def factorF : Nat → PState → Except PErr Expr × PState
  | 0, st => (.error .fuel, st)
  | fuel + 1, st =>
    match unaryF fuel st with
    | (.error er, st) => (.error er, st)
    | (.ok e, st) => factorLoopF fuel e st

/-- The binary loop of `Parser.factor`. -/
def factorLoopF : Nat → Expr → PState → Except PErr Expr × PState
  | 0, _, st => (.error .fuel, st)
  | fuel + 1, e, st =>
    let (m, st) := st.matchTok [.SLASH, .STAR]
    if m then
      let op := st.prevTok
      match unaryF fuel st with
      | (.error er, st) => (.error er, st)
      | (.ok r, st) => factorLoopF fuel (.binary e op r) st
    else (.ok e, st)

/-- `Parser.unary`: note that its fall-through goes straight to
`primary` — the source has no call-expression parsing level. -/
def unaryF : Nat → PState → Except PErr Expr × PState
  | 0, st => (.error .fuel, st)
  | fuel + 1, st =>
    let (m, st) := st.matchTok [.BANG, .MINUS]
    if m then
      let op := st.prevTok
      match unaryF fuel st with
      | (.error er, st) => (.error er, st)
      | (.ok r, st) => (.ok (.unary op r), st)
    else primaryF fuel st

/-- `Parser.primary`. In the FALSE branch the source returns
`Literal(False)` with the bare, undefined name `Literal` (it is
`Expr.Literal` everywhere else), so matching a `false` token raises a
host NameError. -/
def primaryF : Nat → PState → Except PErr Expr × PState
  | 0, st => (.error .fuel, st)
  | fuel + 1, st =>
    let (m, st) := st.matchTok [.FALSE]
    if m then (.error (.host "NameError: name Literal is not defined"), st)
    else
      let (m, st) := st.matchTok [.TRUE]
      if m then (.ok (.literal (.bool true)), st)
      else
        let (m, st) := st.matchTok [.NULL]
        if m then (.ok (.literal .nil), st)
        else
          let (m, st) := st.matchTok [.NUMBER, .STRING]
          if m then
            (.ok (.literal (match st.prevTok.literal with
              | some (.num q) => .num q
              | some (.str s) => .str s
              | none => .nil)), st)
          else
            let (m, st) := st.matchTok [.IDENTIFIER]
            if m then
              let name := st.prevTok
              let (id, st) := st.takeId
              (.ok (.var name id), st)
            else
              let (m, st) := st.matchTok [.LEFT_PAREN]
              if m then
                match expressionF fuel st with
                | (.error er, st) => (.error er, st)
                | (.ok e, st) =>
                  match st.consumeTok .RIGHT_PAREN
                      ("Expected " ++ qd ")" ++ " after expression.") with
                  | (.error er, st) => (.error er, st)
                  | (.ok _, st) => (.ok (.grouping e), st)
              else (.error .perr, st.reportErr st.peekTok "Expected an expression.")

/-- `Parser.statement`. -/
def statementF : Nat → PState → Except PErr Stmt × PState
  | 0, st => (.error .fuel, st)
  | fuel + 1, st =>
    let (m, st) := st.matchTok [.FOR]
    if m then forStatementF fuel st
    else
      let (m, st) := st.matchTok [.IF]
      if m then ifStatementF fuel st
      else
        let (m, st) := st.matchTok [.PRINT]
        if m then printStatementF fuel st
        else
          let (m, st) := st.matchTok [.WHILE]
          if m then whileStatementF fuel st
          else
            let (m, st) := st.matchTok [.LEFT_BRACE]
            if m then
              match blockF fuel st with
              | (.error er, st) => (.error er, st)
              | (.ok ss, st) => (.ok (.block ss), st)
            else expressionStatementF fuel st

/-- `Parser.for_statement`: parse the clauses, then desugar. -/
def forStatementF : Nat → PState → Except PErr Stmt × PState
  | 0, st => (.error .fuel, st)
  | fuel + 1, st =>
    match forClausesF fuel st with
    | (.error er, st) => (.error er, st)
    | (.ok (i, c, n, b), st) => (.ok (desugarFor i c n b), st)

/-- The clause-parsing part of `Parser.for_statement` (everything before
the desugaring comment). -/
def forClausesF : Nat → PState →
    Except PErr (Option Stmt × Option Expr × Option Expr × Stmt) × PState
  | 0, st => (.error .fuel, st)
  | fuel + 1, st =>
    match st.consumeTok .LEFT_PAREN
        ("Expected " ++ qd "(" ++ " after " ++ qd "for" ++ ".") with
    | (.error er, st) => (.error er, st)
    | (.ok _, st) =>
      match forInitF fuel st with
      | (.error er, st) => (.error er, st)
      | (.ok i, st) =>
        match forCondF fuel st with
        | (.error er, st) => (.error er, st)
        | (.ok c, st) =>
          match forIncrF fuel st with
          | (.error er, st) => (.error er, st)
          | (.ok n, st) =>
            match statementF fuel st with
            | (.error er, st) => (.error er, st)
            | (.ok b, st) => (.ok (i, c, n, b), st)

/-- The initialiser clause of `for`. -/
def forInitF : Nat → PState → Except PErr (Option Stmt) × PState
  | 0, st => (.error .fuel, st)
  | fuel + 1, st =>
    let (m, st) := st.matchTok [.SEMICOLON]
    if m then (.ok none, st)
    else
      let (mv, st) := st.matchTok [.VAR]
      if mv then
        match varDeclarationF fuel st with
        | (.error er, st) => (.error er, st)
        | (.ok s, st) => (.ok (some s), st)
      else
        match expressionStatementF fuel st with
        | (.error er, st) => (.error er, st)
        | (.ok s, st) => (.ok (some s), st)

/-- The condition clause of `for` and its closing semicolon. -/
def forCondF : Nat → PState → Except PErr (Option Expr) × PState
  | 0, st => (.error .fuel, st)
  | fuel + 1, st =>
    match
      (if st.checkTok .SEMICOLON then ((.ok none : Except PErr (Option Expr)), st)
       else
         match expressionF fuel st with
         | (.error er, st) => (.error er, st)
         | (.ok e, st) => (.ok (some e), st)) with
    | (.error er, st) => (.error er, st)
    | (.ok c, st) =>
      match st.consumeTok .SEMICOLON
          ("Expected " ++ qd ";" ++ " after loop condition.") with
      | (.error er, st) => (.error er, st)
      | (.ok _, st) => (.ok c, st)

/-- The increment clause of `for` and the closing parenthesis. -/
def forIncrF : Nat → PState → Except PErr (Option Expr) × PState
  | 0, st => (.error .fuel, st)
  | fuel + 1, st =>
    match
      (if st.checkTok .RIGHT_PAREN then ((.ok none : Except PErr (Option Expr)), st)
       else
         match expressionF fuel st with
         | (.error er, st) => (.error er, st)
         | (.ok e, st) => (.ok (some e), st)) with
    | (.error er, st) => (.error er, st)
    | (.ok n, st) =>
      match st.consumeTok .RIGHT_PAREN
          ("Expected " ++ qd ")" ++ " after for clauses.") with
      | (.error er, st) => (.error er, st)
      | (.ok _, st) => (.ok n, st)

/-- `Parser.if_statement`. -/
def ifStatementF : Nat → PState → Except PErr Stmt × PState
  | 0, st => (.error .fuel, st)
  | fuel + 1, st =>
    match st.consumeTok .LEFT_PAREN
        ("Expected " ++ qd "(" ++ " after " ++ qd "if" ++ ".") with
    | (.error er, st) => (.error er, st)
    | (.ok _, st) =>
      match expressionF fuel st with
      | (.error er, st) => (.error er, st)
      | (.ok cond, st) =>
        match st.consumeTok .RIGHT_PAREN
            ("Expected " ++ qd ")" ++ " after if condition.") with
        | (.error er, st) => (.error er, st)
        | (.ok _, st) =>
          match statementF fuel st with
          | (.error er, st) => (.error er, st)
          | (.ok thenB, st) =>
            let (m, st) := st.matchTok [.ELSE]
            if m then
              match statementF fuel st with
              | (.error er, st) => (.error er, st)
              | (.ok elseB, st) => (.ok (.ifS cond thenB (some elseB)), st)
            else (.ok (.ifS cond thenB none), st)

/-- `Parser.print_statement`. -/
def printStatementF : Nat → PState → Except PErr Stmt × PState
  | 0, st => (.error .fuel, st)
  | fuel + 1, st =>
    match expressionF fuel st with
    | (.error er, st) => (.error er, st)
    | (.ok value, st) =>
      match st.consumeTok .SEMICOLON ("Expect " ++ qd ";" ++ " after value.") with
      | (.error er, st) => (.error er, st)
      | (.ok _, st) => (.ok (.print value), st)

/-- `Parser.var_declaration`. -/
def varDeclarationF : Nat → PState → Except PErr Stmt × PState
  | 0, st => (.error .fuel, st)
  | fuel + 1, st =>
    match st.consumeTok .IDENTIFIER "Expected a variable name." with
    | (.error er, st) => (.error er, st)
    | (.ok name, st) =>
      let (m, st) := st.matchTok [.EQUAL]
      if m then
        match expressionF fuel st with
        | (.error er, st) => (.error er, st)
        | (.ok init, st) =>
          match st.consumeTok .SEMICOLON
              ("Expected " ++ qd ";" ++ " after variable declaration.") with
          | (.error er, st) => (.error er, st)
          | (.ok _, st) => (.ok (.var name (some init)), st)
      else
        match st.consumeTok .SEMICOLON
            ("Expected " ++ qd ";" ++ " after variable declaration.") with
        | (.error er, st) => (.error er, st)
        | (.ok _, st) => (.ok (.var name none), st)

/-- `Parser.while_statement`. -/
def whileStatementF : Nat → PState → Except PErr Stmt × PState
  | 0, st => (.error .fuel, st)
  | fuel + 1, st =>
    match st.consumeTok .LEFT_PAREN
        ("Expected " ++ qd "(" ++ " after " ++ qd "while" ++ ".") with
    | (.error er, st) => (.error er, st)
    | (.ok _, st) =>
      match expressionF fuel st with
      | (.error er, st) => (.error er, st)
      | (.ok cond, st) =>
        match st.consumeTok .RIGHT_PAREN
            ("Expected " ++ qd ")" ++ " after " ++ qd "condition" ++ ".") with
        | (.error er, st) => (.error er, st)
        | (.ok _, st) =>
          match statementF fuel st with
          | (.error er, st) => (.error er, st)
          | (.ok body, st) => (.ok (.whileS cond body), st)

/-- `Parser.expression_statement`. -/
def expressionStatementF : Nat → PState → Except PErr Stmt × PState
  | 0, st => (.error .fuel, st)
  | fuel + 1, st =>
    match expressionF fuel st with
    | (.error er, st) => (.error er, st)
    | (.ok e, st) =>
      match st.consumeTok .SEMICOLON ("Expect " ++ qd ";" ++ " after expression.") with
      | (.error er, st) => (.error er, st)
      | (.ok _, st) => (.ok (.expression e), st)

/-- `Parser.block`: gather declarations until the closing brace, which is
then consumed. -/
def blockF : Nat → PState → Except PErr (List (Option Stmt)) × PState
  | 0, st => (.error .fuel, st)
  | fuel + 1, st =>
    if !st.checkTok .RIGHT_BRACE && !st.isAtEnd then
      match declarationF fuel st with
      | (.error er, st) => (.error er, st)
      | (.ok d, st) =>
        match blockF fuel st with
        | (.error er, st) => (.error er, st)
        | (.ok rest, st) => (.ok (d :: rest), st)
    else
      match st.consumeTok .RIGHT_BRACE
          ("Expected " ++ qd rbr ++ " to finish block.") with
      | (.error er, st) => (.error er, st)
      | (.ok _, st) => (.ok [], st)

/-- The try-body of `Parser.declaration`: a var declaration after a VAR
token, else a statement. -/
def declBodyF : Nat → PState → Except PErr Stmt × PState
  | 0, st => (.error .fuel, st)
  | fuel + 1, st =>
    let (m, st) := st.matchTok [.VAR]
    if m then varDeclarationF fuel st else statementF fuel st

/-- `Parser.declaration`: a ParseError is caught, the parser
synchronises, and — the method having no return statement on that path —
Python None is the result. Other exceptions propagate. -/
def declarationF : Nat → PState → Except PErr (Option Stmt) × PState
  | 0, st => (.error .fuel, st)
  | fuel + 1, st =>
    match declBodyF fuel st with
    | (.ok s, st) => (.ok (some s), st)
    | (.error .perr, st) => (.ok none, synchronise fuel st)
    | (.error er, st) => (.error er, st)

/-- The loop of `Parser.parse`: append each declaration result —
including the None of a failed one — until EOF. -/
def parseLoopF : Nat → PState → Except PErr (List (Option Stmt)) × PState
  | 0, st => (.error .fuel, st)
  | fuel + 1, st =>
    if st.isAtEnd then (.ok [], st)
    else
      match declarationF fuel st with
      | (.error er, st) => (.error er, st)
      | (.ok d, st) =>
        match parseLoopF fuel st with
        | (.error er, st) => (.error er, st)
        | (.ok rest, st) => (.ok (d :: rest), st)

end

/-- Initial parser state over a token list. -/
def initPState (tokens : List Token) : PState := ⟨tokens, 0, [], 0⟩

/-- `Parser.parse`. -/
def parseTokens (fuel : Nat) (tokens : List Token) :
    Except PErr (List (Option Stmt)) × PState :=
  parseLoopF fuel (initPState tokens)

/-!  Driver (lox/lox.py) and `Interpreter.interpret`.  -/

/-- Observable outcome of one `Interpreter.interpret` call. -/
inductive Outcome where
  | ok
  | reported (message : String) (line : Nat)
  | crashed (message : String)
  | fuelOut
deriving Repr, DecidableEq

/-- `Interpreter.interpret`: execute the top-level statements catching
only `RuntimeException`, which is reported through the runtime-error
callback; any other exception (and a Return unwinding past the top
level) propagates to the host uncaught. -/
def interpret (fuel : Nat) (stmts : List (Option Stmt)) (σ : InterpState) :
    Outcome × InterpState :=
  match execStmts fuel stmts σ with
  | (.norm, σ1) => (.ok, σ1)
  | (.ret _, σ1) => (.crashed "uncaught Return", σ1)
  | (.exc (.rte m line), σ1) => (.reported m line, σ1)
  | (.exc (.host m), σ1) => (.crashed m, σ1)
  | (.exc .fuel, σ1) => (.fuelOut, σ1)

/-- `Interpreter.__init__`: the global environment (arena index 0,
enclosing None) pre-populated by `define_native_functions` — modelled
from the spec as a clock native of arity 0 — an empty resolution map and
no output. `Interpreter.resolve` is the only writer of the resolution
map and nothing in the driver calls it. -/
def initState : InterpState :=
  { arena := [⟨[("clock", .native "clock" 0)], none⟩]
    env := 0
    locals := []
    output := [] }

/-- Observable outcome of `Lox.run` in batch mode. -/
inductive RunRes where
  | exited (code : Nat)
  | ran (o : Outcome) (output : List String)
  | scanCrash (message : String)
  | parseCrash (message : String)
  | fuelOut
deriving Repr, DecidableEq

/-- `Lox.run` with `is_repl = False`: scan, parse, `sys.exit(65)` when
any static error was reported, otherwise interpret. No resolution pass
exists between parsing and interpretation. -/
def loxRun (fuel : Nat) (source : String) : RunRes :=
  match scanSource fuel source with
  | .error (.host m) => .scanCrash m
  | .error _ => .fuelOut
  | .ok sst =>
    match parseTokens fuel sst.tokens with
    | (.error (.host m), _) => .parseCrash m
    | (.error _, _) => .fuelOut
    | (.ok stmts, pst) =>
      if sst.errors.length + pst.errors.length ≠ 0 then .exited 65
      else
        match interpret fuel stmts initState with
        | (o, σ) => .ran o σ.output

/-!  Auxiliary definitions for the theorems.  -/

/-- The spec's scoping test program
`var a = 1; { var a = 2; print a; } print a;`. -/
def c1Source : String :=
  "var a = 1; " ++ lbr ++ " var a = 2; print a; " ++ rbr ++ " print a;"

/-- An identifier token `a` (line 1). -/
def aTok : Token := ⟨.IDENTIFIER, "a", none, 1⟩

/-- The token list the scanner produces for `c1Source`. -/
def c1Toks : List Token :=
  [⟨.VAR, "var", none, 1⟩, aTok, ⟨.EQUAL, "=", none, 1⟩,
   ⟨.NUMBER, "1", some (.num 1), 1⟩, ⟨.SEMICOLON, ";", none, 1⟩,
   ⟨.LEFT_BRACE, lbr, none, 1⟩,
   ⟨.VAR, "var", none, 1⟩, aTok, ⟨.EQUAL, "=", none, 1⟩,
   ⟨.NUMBER, "2", some (.num 2), 1⟩, ⟨.SEMICOLON, ";", none, 1⟩,
   ⟨.PRINT, "print", none, 1⟩, aTok, ⟨.SEMICOLON, ";", none, 1⟩,
   ⟨.RIGHT_BRACE, rbr, none, 1⟩,
   ⟨.PRINT, "print", none, 1⟩, aTok, ⟨.SEMICOLON, ";", none, 1⟩,
   ⟨.EOF, "", none, 1⟩]

/-- The scanner's final state on `c1Source`. -/
def c1ScanOut : SState := ⟨c1Source.toList, c1Toks, 42, 43, 1, []⟩

/-- The statement list the parser produces for `c1Source`. -/
def c1Prog : List (Option Stmt) :=
  [some (.var aTok (some (.literal (.num 1)))),
   some (.block [some (.var aTok (some (.literal (.num 2)))),
                 some (.print (.var aTok 0))]),
   some (.print (.var aTok 1))]

/-- The parser's final state on `c1Toks`. -/
def c1POut : PState := ⟨c1Toks, 18, [], 2⟩

/-- An identifier token `f` (line 1). -/
def fTok : Token := ⟨.IDENTIFIER, "f", none, 1⟩

/-- An identifier token `x` (line 1). -/
def xTok : Token := ⟨.IDENTIFIER, "x", none, 1⟩

/-- A closing-parenthesis token (the `paren` of a Call node). -/
def parenTok : Token := ⟨.RIGHT_PAREN, ")", none, 1⟩

/-- A slash token (line 1). -/
def slashTok : Token := ⟨.SLASH, "/", none, 1⟩

/-- An `and` keyword token (line 1). -/
def andTok : Token := ⟨.AND, "and", none, 1⟩

/-- The program `fun f(x) print "side"; f();` as the interpreter receives
it (the AST is built directly: the snapshot's parser has no function or
call syntax, but `visit_function_stmt` and `visit_call_expr` execute such
nodes). -/
def c3Stmts : List (Option Stmt) :=
  [some (.function fTok [xTok] [some (.print (.literal (.str "side")))]),
   some (.expression (.call (.var fTok 0) parenTok []))]

/-- The token list the scanner produces for `var 1; print 1;`. -/
def c10Toks : List Token :=
  [⟨.VAR, "var", none, 1⟩, ⟨.NUMBER, "1", some (.num 1), 1⟩,
   ⟨.SEMICOLON, ";", none, 1⟩, ⟨.PRINT, "print", none, 1⟩,
   ⟨.NUMBER, "1", some (.num 1), 1⟩, ⟨.SEMICOLON, ";", none, 1⟩,
   ⟨.EOF, "", none, 1⟩]

/-- The parser state just after the FOR keyword of
`for (;;) print 1;` has been matched by `Parser.statement`. -/
def c8State : PState :=
  { tokens :=
      [⟨.FOR, "for", none, 1⟩, ⟨.LEFT_PAREN, "(", none, 1⟩,
       ⟨.SEMICOLON, ";", none, 1⟩, ⟨.SEMICOLON, ";", none, 1⟩,
       ⟨.RIGHT_PAREN, ")", none, 1⟩, ⟨.PRINT, "print", none, 1⟩,
       ⟨.NUMBER, "1", some (.num 1), 1⟩, ⟨.SEMICOLON, ";", none, 1⟩,
       ⟨.EOF, "", none, 1⟩]
    current := 1
    errors := []
    nextId := 0 }

/-- The for-statement lowering exactly as the specification words it: if
an increment is present the body becomes a new Block of
[body, Expression(increment)]; the condition defaults to Literal(true)
when omitted; the result is wrapped as While(condition, body); if an
initializer is present the While is wrapped in an outer Block of
[initializer, while]. -/
def specForDesugar (initialiser : Option Stmt) (condition : Option Expr)
    (increment : Option Expr) (body : Stmt) : Stmt :=
  let body1 :=
    if h : increment.isSome then
      Stmt.block [some body, some (Stmt.expression (increment.get h))]
    else body
  let w := Stmt.whileS (condition.getD (Expr.literal (.bool true))) body1
  if h : initialiser.isSome then Stmt.block [some (initialiser.get h), some w]
  else w

/-- Arena evolution invariant: execution may add frames and overwrite
values inside frames, but it never removes a frame and never changes the
`enclosing` link of an existing frame. -/
def ArenaExtends (a b : List Frame) : Prop :=
  a.length ≤ b.length ∧
  ∀ i f, a.get? i = some f → ∃ g, b.get? i = some g ∧ g.enclosing = f.enclosing

/-!  Theorems.  -/

/-- C1: the spec's scoping test `var a = 1; { var a = 2; print a; }
print a;` is claimed to print `2` then `1`. Running the actual pipeline
(`Lox.run`: scan, parse, interpret — no resolution pass is ever invoked,
so the interpreter's locals map stays empty and `lookup_variable` always
falls back to `global_vars.get`) prints `1` then `1`: the inner read does
NOT see the innermost declaring scope's binding. -/
theorem c1_scoping_prints_one_one :
    loxRun 100 c1Source = .ran .ok ["1", "1"] ∧
    loxRun 100 c1Source ≠ .ran .ok ["2", "1"] := by
  have hscan : scanSource 100 c1Source = .ok c1ScanOut := rfl
  have htoks : c1ScanOut.tokens = c1Toks := rfl
  have hparse : parseTokens 100 c1Toks = (.ok c1Prog, c1POut) := rfl
  have h1 : (interpret 100 c1Prog initState).1 = .ok := rfl
  have h2 : (interpret 100 c1Prog initState).2.output = ["1", "1"] := rfl
  have hmain : loxRun 100 c1Source = .ran .ok ["1", "1"] := by
    rw [loxRun, hscan]
    dsimp only
    rw [htoks, hparse]
    dsimp only [c1ScanOut, c1POut]
    simp only [List.length_nil]
    rcases hI : interpret 100 c1Prog initState with ⟨o, σ⟩
    rw [hI] at h1 h2
    simp only at h1 h2
    simp [h1, h2]
  exact ⟨hmain, by rw [hmain]; decide⟩

/-- C2 counterexample: dividing 2 by 1 — both operands non-zero, so the
claim demands the quotient 2 — instead raises the dedicated
divide-by-zero RuntimeException (the source's check `left or right == 0`
fires because the left operand is truthy). -/
theorem c2_division_counterexample :
    (2 : ℚ) ≠ 0 ∧ (1 : ℚ) ≠ 0 ∧
    (evalExpr 2 (.binary (.literal (.num 2)) slashTok (.literal (.num 1)))
      initState).1 = .error (.rte "Cannot divide by zero." 1) :=
  ⟨by norm_num, by norm_num, rfl⟩

/-- C2 amended: evaluating `/` on number operands raises the
divide-by-zero runtime error exactly when the left operand is non-zero
or the right operand is zero, and otherwise (left zero, right non-zero)
returns the numeric quotient. -/
theorem c2_division_amended (fuel : Nat) (a b : ℚ) (lex : String) (line : Nat)
    (σ : InterpState) :
    evalExpr (fuel + 2)
        (.binary (.literal (.num a)) ⟨.SLASH, lex, none, line⟩ (.literal (.num b))) σ =
      ((if a ≠ 0 ∨ b = 0 then .error (.rte "Cannot divide by zero." line)
        else .ok (.num (a / b))), σ) := by
  simp only [evalExpr, evalBinaryOp, litToValue]

/-- C3: calling a declared one-parameter function with zero arguments.
The arity check fires before the body runs (no output is produced), but
it raises the builtin RuntimeError — not RuntimeException — so
`Interpreter.interpret`'s handler does not catch it and the runtime-error
callback is never invoked: the host crashes instead of reporting. -/
theorem c3_arity_mismatch_crashes :
    (interpret 100 c3Stmts initState).1 = .crashed "Expected 1 arguments but got 0." ∧
    (interpret 100 c3Stmts initState).2.output = [] :=
  ⟨rfl, rfl⟩

/-- C4: reading a never-declared name raises the undefined-variable
RuntimeException naming the identifier and is reported through the
callback, as claimed; but ASSIGNING a never-declared name crashes with a
host KeyError (`visit_assign_expr` indexes `self.locals[expr]` directly
and the resolution map has no entry), so the claimed undefined-variable
error is never raised on the assignment path. -/
theorem c4_undeclared_read_vs_assign :
    (interpret 100 [some (.print (.var xTok 0))] initState).1 =
      .reported ("Undefined variable " ++ q1 ++ "x" ++ q1 ++ ".") 1 ∧
    (interpret 100 [some (.expression (.assign xTok (.literal (.num 1)) 0))]
      initState).1 = .crashed "KeyError: Expr.Assign" :=
  ⟨rfl, rfl⟩

/-- C5: parsing `true` and `null` in primary position yields the claimed
Literal nodes, but parsing `false` raises a host NameError (the source
returns bare `Literal(False)`, an undefined name), crashing the parse
instead of producing Literal(false). -/
theorem c5_primary_keyword_literals :
    (parseTokens 100 [⟨.FALSE, "false", none, 1⟩, ⟨.SEMICOLON, ";", none, 1⟩,
        ⟨.EOF, "", none, 1⟩]).1 =
      .error (.host "NameError: name Literal is not defined") ∧
    (parseTokens 100 [⟨.TRUE, "true", none, 1⟩, ⟨.SEMICOLON, ";", none, 1⟩,
        ⟨.EOF, "", none, 1⟩]).1 =
      .ok [some (.expression (.literal (.bool true)))] ∧
    (parseTokens 100 [⟨.NULL, "null", none, 1⟩, ⟨.SEMICOLON, ";", none, 1⟩,
        ⟨.EOF, "", none, 1⟩]).1 =
      .ok [some (.expression (.literal .nil))] ∧
    loxRun 100 "false;" = .parseCrash "NameError: name Literal is not defined" :=
  ⟨rfl, rfl, rfl, rfl⟩

/-- C6: scanning a digit sequence alone emits the claimed single NUMBER
token, but a digit sequence followed by a dot and more digits crashes
the scan with a host TypeError (`is_digit(self.peek_next)` passes the
bound method itself, never calling it), so no NUMBER token with the full
digit.digit lexeme is ever produced. -/
theorem c6_fractional_number_crashes :
    scanSource 100 "1.5" = .error (.host "TypeError: ordering comparison of method and str") ∧
    loxRun 100 "1.5" = .scanCrash "TypeError: ordering comparison of method and str" ∧
    (∃ st, scanSource 100 "12" = .ok st ∧
      st.tokens = [⟨.NUMBER, "12", some (.num 12), 1⟩, ⟨.EOF, "", none, 1⟩] ∧
      st.errors = []) :=
  ⟨rfl, rfl, ⟨_, rfl, rfl, rfl⟩⟩

/-- C7: logical operators short-circuit exactly as claimed: `or` returns
the left value, right operand unevaluated, when the left is truthy;
`and` returns the left value, right operand unevaluated, when the left
is falsey; otherwise the result (value and state) is exactly that of
evaluating the right operand, with no boolean coercion. -/
theorem c7_logical_short_circuit (fuel : Nat) (l r : Expr) (op : Token)
    (σ σ1 : InterpState) (v : Value)
    (h : evalExpr fuel l σ = (.ok v, σ1)) :
    (op.tokenType = .OR → isTruthy v = true →
      evalExpr (fuel + 1) (.logical l op r) σ = (.ok v, σ1)) ∧
    (op.tokenType = .OR → isTruthy v = false →
      evalExpr (fuel + 1) (.logical l op r) σ = evalExpr fuel r σ1) ∧
    (op.tokenType = .AND → isTruthy v = false →
      evalExpr (fuel + 1) (.logical l op r) σ = (.ok v, σ1)) ∧
    (op.tokenType = .AND → isTruthy v = true →
      evalExpr (fuel + 1) (.logical l op r) σ = evalExpr fuel r σ1) := by
  refine ⟨?_, ?_, ?_, ?_⟩ <;> intro hop htr <;>
    simp only [evalExpr, h, hop, htr] <;> simp

/-- C7 witness: `false and (1/0)` evaluates to the left operand false,
never evaluating the division (which would raise). -/
theorem c7_witness :
    evalExpr 5 (.logical (.literal (.bool false)) andTok
      (.binary (.literal (.num 1)) slashTok (.literal (.num 0)))) initState =
      (.ok (.bool false), initState) :=
  (c7_logical_short_circuit 4 (.literal (.bool false))
    (.binary (.literal (.num 1)) slashTok (.literal (.num 0)))
    andTok initState initState (.bool false) rfl).2.2.1 rfl rfl

/-- C8: the for-statement lowering the parser performs agrees with the
claim's description on every combination of present/absent initializer,
condition and increment, and every successful `for_statement` parse
returns exactly such a lowering (there is no `for` node in the statement
AST at all). -/
theorem c8_for_desugaring :
    (∀ i c n b, desugarFor i c n b = specForDesugar i c n b) ∧
    (∀ fuel st r, (forStatementF fuel st).1 = .ok r →
      ∃ i c n b, r = desugarFor i c n b) := by
  constructor
  · intro i c n b
    cases i <;> cases c <;> cases n <;> rfl
  · intro fuel st r h
    match fuel, h with
    | fuel + 1, h =>
      rw [forStatementF] at h
      rcases hc : forClausesF fuel st with ⟨res, st1⟩
      rw [hc] at h
      cases res with
      | error er => simp at h
      | ok q =>
        obtain ⟨i, c, n, b⟩ := q
        simp only at h
        exact ⟨i, c, n, b, (Except.ok.injEq _ _).mp h.symm⟩

/-- C8 witness: parsing `for (;;) print 1;` (after the FOR keyword)
succeeds and is a desugaring instance. -/
theorem c8_witness :
    (forStatementF 50 c8State).1 =
      .ok (.whileS (.literal (.bool true)) (.print (.literal (.num 1)))) ∧
    ∃ i c n b,
      Stmt.whileS (.literal (.bool true)) (.print (.literal (.num 1))) =
        desugarFor i c n b :=
  ⟨rfl, c8_for_desugaring.2 50 c8State
    (.whileS (.literal (.bool true)) (.print (.literal (.num 1)))) rfl⟩

theorem arenaExtends_refl (a : List Frame) : ArenaExtends a a :=
  ⟨le_refl _, fun _ f h => ⟨f, h, rfl⟩⟩

theorem arenaExtends_trans {a b c : List Frame}
    (h1 : ArenaExtends a b) (h2 : ArenaExtends b c) : ArenaExtends a c := by
  refine ⟨le_trans h1.1 h2.1, fun i f h => ?_⟩
  obtain ⟨g, hg, he⟩ := h1.2 i f h
  obtain ⟨k, hk, hke⟩ := h2.2 i g hg
  exact ⟨k, hk, hke.trans he⟩

theorem arenaExtends_append (a l : List Frame) : ArenaExtends a (a ++ l) := by
  refine ⟨by simp, fun i f h => ⟨f, ?_, rfl⟩⟩
  have hi : i < a.length := by
    by_contra hge
    rw [List.get?_eq_none.mpr (le_of_not_lt hge)] at h
    exact Option.noConfusion h
  rw [List.get?_append hi]
  exact h

theorem updateAt_length (a : List Frame) (i : Nat) (g : Frame → Frame) :
    (updateAt a i g).length = a.length := by
  induction a generalizing i with
  | nil => rfl
  | cons f t ih =>
    cases i with
    | zero => rfl
    | succ n => simp [updateAt, ih]

theorem updateAt_get? (a : List Frame) (i j : Nat) (g : Frame → Frame) :
    (updateAt a i g).get? j = if j = i then (a.get? j).map g else a.get? j := by
  induction a generalizing i j with
  | nil => simp [updateAt]
  | cons f t ih =>
    cases i with
    | zero =>
      cases j with
      | zero => simp [updateAt]
      | succ m => simp [updateAt]
    | succ n =>
      cases j with
      | zero => simp [updateAt]
      | succ m => simpa [updateAt, Nat.succ_inj] using ih n m

theorem arenaExtends_updateAt (a : List Frame) (i : Nat) (g : Frame → Frame)
    (hg : ∀ f, (g f).enclosing = f.enclosing) : ArenaExtends a (updateAt a i g) := by
  refine ⟨le_of_eq (updateAt_length a i g).symm, fun j f h => ?_⟩
  rw [updateAt_get?]
  by_cases hj : j = i
  · rw [if_pos hj, h]
    exact ⟨g f, rfl, hg f⟩
  · rw [if_neg hj]
    exact ⟨f, h, rfl⟩

theorem arenaExtends_defineIn (a : List Frame) (i : Nat) (n : String) (v : Value) :
    ArenaExtends a (defineIn a i n v) :=
  arenaExtends_updateAt a i _ (fun _ => rfl)

theorem envAssignFuel_extends :
    ∀ fuel (a : List Frame) (i : Nat) (t : Token) (v : Value) (b : List Frame),
    envAssignFuel fuel a i t v = .ok b → ArenaExtends a b := by
  intro fuel
  induction fuel with
  | zero =>
    intro a i t v b h
    exact absurd h (by simp [envAssignFuel])
  | succ n ih =>
    intro a i t v b h
    rw [envAssignFuel] at h
    rcases hg : a.get? i with _ | f <;> rw [hg] at h <;> dsimp only at h
    · exact absurd h (by simp)
    · by_cases hm : (lookupVals f.values t.lexeme).isSome
      · rw [if_pos hm] at h
        cases h
        exact arenaExtends_defineIn a i t.lexeme v
      · rw [if_neg hm] at h
        rcases he : f.enclosing with _ | j <;> rw [he] at h <;> dsimp only at h
        · exact absurd h (by simp)
        · exact ih a j t v b h

theorem assignAt_extends (a : List Frame) (d i : Nat) (n : String) (v : Value)
    (b : List Frame) (h : assignAt a d i n v = .ok b) : ArenaExtends a b := by
  rw [assignAt] at h
  rcases hj : ancestorIdx d a i with _ | j <;> rw [hj] at h <;> dsimp only at h
  · exact absurd h (by simp)
  · rcases hg : a.get? j with _ | f <;> rw [hg] at h <;> dsimp only at h
    · exact absurd h (by simp)
    · cases h
      exact arenaExtends_defineIn a j n v

/-- Evaluation and execution only extend the arena: no frame is ever
removed and no existing frame's `enclosing` link is ever rewritten (only
`values` entries change, via define/assign). -/
theorem exec_arenaExtends : ∀ fuel,
    (∀ e σ, ArenaExtends σ.arena (evalExpr fuel e σ).2.arena) ∧
    (∀ es σ, ArenaExtends σ.arena (evalArgs fuel es σ).2.arena) ∧
    (∀ v args σ, ArenaExtends σ.arena (callValue fuel v args σ).2.arena) ∧
    (∀ ss i σ, ArenaExtends σ.arena (execBlock fuel ss i σ).2.arena) ∧
    (∀ ss σ, ArenaExtends σ.arena (execStmts fuel ss σ).2.arena) ∧
    (∀ s σ, ArenaExtends σ.arena (execStmt fuel s σ).2.arena) := by
  intro fuel
  induction fuel with
  | zero =>
    refine ⟨fun e σ => ?_, fun es σ => ?_, fun v args σ => ?_,
      fun ss i σ => ?_, fun ss σ => ?_, fun s σ => ?_⟩ <;>
      exact arenaExtends_refl _
  | succ n ih =>
    obtain ⟨ihE, ihA, ihC, ihB, ihSS, ihS⟩ := ih
    refine ⟨fun e σ => ?_, fun es σ => ?_, fun v args σ => ?_,
      fun ss i σ => ?_, fun ss σ => ?_, fun s σ => ?_⟩
    · -- evalExpr
      cases e with
      | literal v => exact arenaExtends_refl _
      | grouping inner =>
        simp only [evalExpr]
        exact ihE inner σ
      | unary op right =>
        simp only [evalExpr]
        split
        next er σ1 heq =>
          have hx := ihE right σ
          rw [heq] at hx
          exact hx
        next rv σ1 heq =>
          have hx : ArenaExtends σ.arena σ1.arena := by
            have := ihE right σ; rw [heq] at this; exact this
          split
          · exact hx
          · split
            · exact hx
            · exact hx
          · exact hx
      | logical left op right =>
        simp only [evalExpr]
        split
        next er σ1 heq =>
          have hx := ihE left σ
          rw [heq] at hx
          exact hx
        next lv σ1 heq =>
          have hx : ArenaExtends σ.arena σ1.arena := by
            have := ihE left σ; rw [heq] at this; exact this
          have hr : ArenaExtends σ.arena (evalExpr n right σ1).2.arena :=
            arenaExtends_trans hx (ihE right σ1)
          split
          · split
            · exact hx
            · exact hr
          · split
            · split
              · exact hx
              · exact hr
            · exact hx
      | var name id => exact arenaExtends_refl _
      | assign name value id =>
        simp only [evalExpr]
        split
        next er σ1 heq =>
          have hx := ihE value σ
          rw [heq] at hx
          exact hx
        next v σ1 heq =>
          have hx : ArenaExtends σ.arena σ1.arena := by
            have := ihE value σ; rw [heq] at this; exact this
          split
          next hL => exact hx
          next dist hL =>
            split
            next arena2 hA =>
              exact arenaExtends_trans hx
                (assignAt_extends σ1.arena dist σ1.env name.lexeme v arena2 hA)
            next er hA => exact hx
          next hL =>
            split
            next arena2 hA =>
              exact arenaExtends_trans hx
                (envAssignFuel_extends _ σ1.arena 0 name v arena2 hA)
            next er hA => exact hx
      | binary left op right =>
        simp only [evalExpr]
        split
        next er σ1 heq =>
          have hx := ihE left σ
          rw [heq] at hx
          exact hx
        next lv σ1 heq =>
          have hx : ArenaExtends σ.arena σ1.arena := by
            have := ihE left σ; rw [heq] at this; exact this
          split
          next er σ2 heq2 =>
            have := ihE right σ1
            rw [heq2] at this
            exact arenaExtends_trans hx this
          next rv σ2 heq2 =>
            have := ihE right σ1
            rw [heq2] at this
            exact arenaExtends_trans hx this
      | call callee paren argEs =>
        simp only [evalExpr]
        split
        next er σ1 heq =>
          have hx := ihE callee σ
          rw [heq] at hx
          exact hx
        next cv σ1 heq =>
          have hx : ArenaExtends σ.arena σ1.arena := by
            have := ihE callee σ; rw [heq] at this; exact this
          split
          next er σ2 heq2 =>
            have := ihA argEs σ1
            rw [heq2] at this
            exact arenaExtends_trans hx this
          next args σ2 heq2 =>
            have hy : ArenaExtends σ.arena σ2.arena := by
              have := ihA argEs σ1; rw [heq2] at this
              exact arenaExtends_trans hx this
            split
            · exact hy
            · split
              · exact hy
              · exact arenaExtends_trans hy (ihC cv args σ2)
    · -- evalArgs
      cases es with
      | nil => exact arenaExtends_refl _
      | cons e rest =>
        simp only [evalArgs]
        split
        next er σ1 heq =>
          have hx := ihE e σ
          rw [heq] at hx
          exact hx
        next v σ1 heq =>
          have hx : ArenaExtends σ.arena σ1.arena := by
            have := ihE e σ; rw [heq] at this; exact this
          split
          next er σ2 heq2 =>
            have := ihA rest σ1
            rw [heq2] at this
            exact arenaExtends_trans hx this
          next vs σ2 heq2 =>
            have := ihA rest σ1
            rw [heq2] at this
            exact arenaExtends_trans hx this
    · -- callValue
      cases v with
      | func name params body closure =>
        simp only [callValue]
        split
        next σ2 heq =>
          have h0 := ihB body σ.arena.length ({ σ with arena := σ.arena ++ [⟨(params.zip args).foldl (fun acc pa => setVals acc pa.1.lexeme pa.2) [], some closure⟩] })
          rw [heq] at h0
          exact arenaExtends_trans (arenaExtends_append σ.arena _) h0
        next rv σ2 heq =>
          have h0 := ihB body σ.arena.length ({ σ with arena := σ.arena ++ [⟨(params.zip args).foldl (fun acc pa => setVals acc pa.1.lexeme pa.2) [], some closure⟩] })
          rw [heq] at h0
          exact arenaExtends_trans (arenaExtends_append σ.arena _) h0
        next er σ2 heq =>
          have h0 := ihB body σ.arena.length ({ σ with arena := σ.arena ++ [⟨(params.zip args).foldl (fun acc pa => setVals acc pa.1.lexeme pa.2) [], some closure⟩] })
          rw [heq] at h0
          exact arenaExtends_trans (arenaExtends_append σ.arena _) h0
      | nil => exact arenaExtends_refl _
      | bool b => exact arenaExtends_refl _
      | num q => exact arenaExtends_refl _
      | str s => exact arenaExtends_refl _
      | native nm a => exact arenaExtends_refl _
      | klass nm => exact arenaExtends_refl _
    · -- execBlock
      simp only [execBlock]
      exact ihSS ss { σ with env := i }
    · -- execStmts
      cases ss with
      | nil => exact arenaExtends_refl _
      | cons o rest =>
        cases o with
        | none => exact arenaExtends_refl _
        | some s =>
          simp only [execStmts]
          split
          next σ1 heq =>
            have hx : ArenaExtends σ.arena σ1.arena := by
              have := ihS s σ; rw [heq] at this; exact this
            exact arenaExtends_trans hx (ihSS rest σ1)
          next other heq =>
            exact ihS s σ
    · -- execStmt
      cases s with
      | expression e =>
        simp only [execStmt]
        split
        next er σ1 heq =>
          have hx := ihE e σ
          rw [heq] at hx
          exact hx
        next v σ1 heq =>
          have hx := ihE e σ
          rw [heq] at hx
          exact hx
      | print e =>
        simp only [execStmt]
        split
        next er σ1 heq =>
          have hx := ihE e σ
          rw [heq] at hx
          exact hx
        next v σ1 heq =>
          have hx := ihE e σ
          rw [heq] at hx
          exact hx
      | var name init =>
        cases init with
        | none =>
          simp only [execStmt]
          exact arenaExtends_defineIn σ.arena σ.env name.lexeme .nil
        | some e =>
          simp only [execStmt]
          split
          next er σ1 heq =>
            have hx := ihE e σ
            rw [heq] at hx
            exact hx
          next v σ1 heq =>
            have hx : ArenaExtends σ.arena σ1.arena := by
              have := ihE e σ; rw [heq] at this; exact this
            exact arenaExtends_trans hx
              (arenaExtends_defineIn σ1.arena σ1.env name.lexeme v)
      | block stmts =>
        simp only [execStmt]
        have h0 := ihB stmts σ.arena.length ({ σ with arena := σ.arena ++ [⟨[], some σ.env⟩] })
        exact arenaExtends_trans (arenaExtends_append σ.arena _) h0
      | ifS cond thenB elseB =>
        simp only [execStmt]
        split
        next er σ1 heq =>
          have hx := ihE cond σ
          rw [heq] at hx
          exact hx
        next v σ1 heq =>
          have hx : ArenaExtends σ.arena σ1.arena := by
            have := ihE cond σ; rw [heq] at this; exact this
          split
          · exact arenaExtends_trans hx (ihS thenB σ1)
          · cases elseB with
            | some eb => exact arenaExtends_trans hx (ihS eb σ1)
            | none => exact hx
      | whileS cond body =>
        simp only [execStmt]
        split
        next er σ1 heq =>
          have hx := ihE cond σ
          rw [heq] at hx
          exact hx
        next v σ1 heq =>
          have hx : ArenaExtends σ.arena σ1.arena := by
            have := ihE cond σ; rw [heq] at this; exact this
          split
          · split
            next σ2 heq2 =>
              have hy : ArenaExtends σ.arena σ2.arena := by
                have := ihS body σ1; rw [heq2] at this
                exact arenaExtends_trans hx this
              exact arenaExtends_trans hy (ihS (.whileS cond body) σ2)
            next other heq2 =>
              exact arenaExtends_trans hx (ihS body σ1)
          · exact hx
      | function name params body =>
        simp only [execStmt]
        exact arenaExtends_defineIn σ.arena σ.env name.lexeme _
      | klass name methods =>
        simp only [execStmt]
        have hd : ArenaExtends σ.arena (defineIn σ.arena σ.env name.lexeme .nil) :=
          arenaExtends_defineIn σ.arena σ.env name.lexeme .nil
        split
        next arena2 hA =>
          exact arenaExtends_trans hd
            (envAssignFuel_extends _ _ σ.env name (.klass name.lexeme) arena2 hA)
        next er hA => exact hd
      | ret kw value =>
        cases value with
        | none => exact arenaExtends_refl _
        | some e =>
          simp only [execStmt]
          split
          next er σ1 heq =>
            have hx := ihE e σ
            rw [heq] at hx
            exact hx
          next v σ1 heq =>
            have hx := ihE e σ
            rw [heq] at hx
            exact hx

theorem execBlock_env (fuel : Nat) (ss : List (Option Stmt)) (i : Nat)
    (σ : InterpState) : ((execBlock fuel ss i σ).2).env = σ.env := by
  cases fuel <;> rfl

/-- C9: executing a Block pushes exactly one fresh child environment of
the current environment — after execution the frame created at the push
position still has the pre-block current environment as its `enclosing`
link — and the interpreter's current-environment pointer is restored to
its pre-block value on every exit path (normal, Return unwind, error or
even fuel exhaustion), for every statement list and every state. -/
theorem c9_block_environment_discipline :
    (∀ fuel ss σ, ((execStmt fuel (.block ss) σ).2).env = σ.env) ∧
    (∀ fuel ss σ, ∃ fr,
      ((execStmt (fuel + 1) (.block ss) σ).2).arena.get? σ.arena.length = some fr ∧
      fr.enclosing = some σ.env) := by
  constructor
  · intro fuel ss σ
    cases fuel with
    | zero => rfl
    | succ n =>
      simp only [execStmt]
      exact execBlock_env n ss σ.arena.length _
  · intro fuel ss σ
    have hpush : (σ.arena ++ [(⟨[], some σ.env⟩ : Frame)]).get? σ.arena.length =
        some ⟨[], some σ.env⟩ := List.get?_concat_length σ.arena _
    simp only [execStmt]
    have hext := (exec_arenaExtends fuel).2.2.2.1 ss σ.arena.length ({ σ with arena := σ.arena ++ [⟨[], some σ.env⟩] })
    obtain ⟨g, hg, hge⟩ := hext.2 σ.arena.length ⟨[], some σ.env⟩ hpush
    exact ⟨g, hg, hge⟩

/-- C10: a declaration whose parse raises ParseError synchronises and
contributes Python None to the list `Parser.parse` returns — the output
list is a list of optional statements, not of statements; concretely,
`var 1; print 1;` parses to [None, Print(Literal 1)]. -/
theorem c10_parse_returns_none_entries :
    (∀ fuel st, (declBodyF fuel st).1 = .error .perr →
      (declarationF (fuel + 1) st).1 = .ok none) ∧
    (parseTokens 100 c10Toks).1 =
      .ok [none, some (.print (.literal (.num 1)))] := by
  constructor
  · intro fuel st h
    rw [declarationF]
    rcases hd : declBodyF fuel st with ⟨res, st2⟩
    rw [hd] at h
    simp only at h
    subst h
    rfl
  · rfl

/-- C10 witness: the failing declaration of `var 1; print 1;`. -/
theorem c10_witness :
    (declBodyF 30 (initPState c10Toks)).1 = .error .perr ∧
    (declarationF 31 (initPState c10Toks)).1 = .ok none :=
  ⟨rfl, c10_parse_returns_none_entries.1 30 (initPState c10Toks) rfl⟩

end Plox
